import Mathlib

set_option maxRecDepth 16384

/-!
Shallow embedding of the `aiprox` edge proxy (src/src/index.ts, latest revision:
the moderation-enabled variant serving GET /ai/txt2txt and
GET /ai/txt2img/:width/:height).

Modelling conventions:
* JS `number` values produced by `parseInt`/`Math.min` are modelled as
  `Option Int`: `none` is `NaN` (note `Math.min (NaN, x) = NaN`, and
  `JSON.stringify` serialises `NaN` as `null`).
* `fetch`/SDK calls are oracles: each route takes the outcome of every
  outbound call it may perform as an argument, and returns the HTTP result
  together with the list of outbound calls it actually issued, in order.
* A thrown `HTTPException status message` and the `app.onError` fallback
  (`c.text("Internal Server Error", 500)`) are both modelled as
  `RouteResult.httpError status message`.
* `String.prototype.replace` with a string pattern is modelled faithfully:
  first occurrence only, with ECMA `GetSubstitution` expansion of the
  replacement string (`$$`, `$&`, the dollar-backquote and dollar-quote
  forms; everything else stays literal since a string pattern has no
  capture groups).
-/

namespace Aiprox

/-! ### JS `parseInt` (radix auto-detected), exact-integer model -/

def isJsWhitespace (c : Char) : Bool :=
  c = ' ' || c = '\t' || c = '\n' || c = '\r' ||
    c = Char.ofNat 11 || c = Char.ofNat 12 || c = Char.ofNat 0xA0 || c = Char.ofNat 0xFEFF

def decDigitVal (c : Char) : Option Nat :=
  if '0' ≤ c ∧ c ≤ '9' then some (c.toNat - 48) else none

def hexDigitVal (c : Char) : Option Nat :=
  if '0' ≤ c ∧ c ≤ '9' then some (c.toNat - 48)
  else if 'a' ≤ c ∧ c ≤ 'f' then some (c.toNat - 87)
  else if 'A' ≤ c ∧ c ≤ 'F' then some (c.toNat - 55)
  else none

def digitsValue (dv : Char → Option Nat) (radix : Nat) : List Char → Nat → Nat
  | [], acc => acc
  | c :: rest, acc =>
    match dv c with
    | some d => digitsValue dv radix rest (acc * radix + d)
    | none => acc

/-- The longest digit segment at the head of `cs`, or `none` (JS `NaN`) when the
first character is not a digit of the radix. -/
def parseDigits (dv : Char → Option Nat) (radix : Nat) (cs : List Char) : Option Nat :=
  match cs with
  | [] => none
  | c :: _ =>
    match dv c with
    | none => none
    | some _ => some (digitsValue dv radix cs 0)

/-- JS `parseInt(s)` with the radix argument omitted: skip whitespace, optional
sign, `0x`/`0X` switches to hexadecimal, then the longest digit segment;
`none` models `NaN`. (We model the value as an exact integer.) -/
def parseIntJS (s : String) : Option Int :=
  let cs := s.toList.dropWhile isJsWhitespace
  let signed : Int × List Char :=
    match cs with
    | '-' :: rest => (-1, rest)
    | '+' :: rest => (1, rest)
    | rest => (1, rest)
  let digits : Option Nat :=
    match signed.2 with
    | '0' :: 'x' :: rest => parseDigits hexDigitVal 16 rest
    | '0' :: 'X' :: rest => parseDigits hexDigitVal 16 rest
    | rest => parseDigits decDigitVal 10 rest
  digits.map (fun n => signed.1 * (n : Int))

/-! ### Dimension clamping (src/src/index.ts lines 148-149) -/

/-- `Math.min(v, 1400)`. -/
def clampDim (v : Int) : Int := min v 1400

/-- `Math.min(parseInt(c.req.param("width") ?? 512), 1400)`.
When the path parameter is absent, `?? 512` supplies the number `512`, which
`parseInt` coerces to the string `"512"`. When it is present but unparseable,
`parseInt` yields `NaN` and `Math.min` propagates it (`none`). -/
def dimParam (p : Option String) : Option Int :=
  let s : String := match p with | none => "512" | some s => s
  (parseIntJS s).map clampDim

/-! ### Templates (src/src/index.ts lines 6-44) -/

def TXT_SYS_PROMPT : String :=
  "\nYou are a text generator that must follow these exact rules:\n\nTASK: Generate 10 text pairs in \"title::description\" format.\n\nFORMAT RULES:\ntitle: always aim for 20 chars max but show last word complete if longer\ndescription: always aim for 50 chars max but show last word complete if longer\nseparator: -----\n\nTEXT HANDLING RULES:\n- Never truncate or omit any words\n- Preserve full meaning and context\n\nINPUT CONTEXT: \"\x7b\x7bprompt\x7d\x7d\"\n\nREQUIREMENTS:\n- Output only the text pairs\n- No additional text or instructions\n- No bullet points or numbering\n- Each pair must relate to the input context\n- Must have exactly 10 pairs\n- Must use ----- as separator\n\nEXAMPLE OUTPUT:\nShort Title::This is a sample description about the topic\n-----\nAnother Title::Another relevant description following the format\n-----\nFinal Title Here::Final description that relates to the given context\n\nSTART OUTPUT NOW:\n"

def IMG_PROMPT : String :=
  "\x7b\x7bprompt\x7d\x7dThe main subject is centered with proper composition, illuminated by soft evenly diffused light. The image is clean without unnecessary details and noise, without distracting elements at the edges, featuring natural color reproduction and harmonious color palette. The overall mood of the photograph is positive and emotional."

def IMG_NEGATIVE_PROMPT : String :=
  "Blurriness, distortion, or inaccurate anatomy, busy or distracting backgrounds, unrealistic or overly saturated colors, signs of photo manipulation or artificial lighting. Bright highlights and overexposed areas, uneven exposure with deep shadows and high contrast. Distorted colors, overly bright and white objects. Noisy background with excessive detail and multiple distracting objects. Incorrect cropping, distorted proportions and complex angles. Text, letters and logos"

/-- The placeholder token both templates use. -/
def promptToken : List Char := "\x7b\x7bprompt\x7d\x7d".toList

/-! ### JS `String.prototype.replace` with a string pattern -/

/-- ECMA `GetSubstitution` for a string search value (no capture groups):
`$$` is a dollar, `$&` the matched text, dollar-backquote the text before the
match, dollar-quote the text after it; everything else is literal. -/
def getSubstitution (matched before after : List Char) : List Char → List Char
  | [] => []
  | [c] => [c]
  | c :: c2 :: rest =>
    if c = '$' then
      if c2 = '$' then '$' :: getSubstitution matched before after rest
      else if c2 = '&' then matched ++ getSubstitution matched before after rest
      else if c2 = Char.ofNat 96 then before ++ getSubstitution matched before after rest
      else if c2 = Char.ofNat 39 then after ++ getSubstitution matched before after rest
      else '$' :: c2 :: getSubstitution matched before after rest
    else c :: getSubstitution matched before after (c2 :: rest)

/-- Split `l` around the first occurrence of `tok`: `some (b, a)` with
`l = b ++ tok ++ a` and no occurrence starting inside `b`; `none` when `tok`
does not occur. -/
def splitAtToken (tok : List Char) : List Char → Option (List Char × List Char)
  | [] => if tok.isEmpty then some ([], []) else none
  | c :: rest =>
    if tok.isPrefixOf (c :: rest) then some ([], (c :: rest).drop tok.length)
    else
      match splitAtToken tok rest with
      | some (b, a) => some (c :: b, a)
      | none => none

/-- JS `s.replace(tok, rep)` for string `tok`: replace the first occurrence
only, expanding `rep` via `GetSubstitution`; return `s` unchanged when `tok`
does not occur. -/
def jsReplaceFirst (s tok rep : List Char) : List Char :=
  match splitAtToken tok s with
  | none => s
  | some (b, a) => b ++ getSubstitution tok b a rep ++ a

def jsReplace (s tok rep : String) : String :=
  ⟨jsReplaceFirst s.toList tok.toList rep.toList⟩

/-- Does `tok` occur (as a contiguous run) in `l`? -/
def hasOccB (tok : List Char) : List Char → Bool
  | [] => tok.isEmpty
  | c :: rest => tok.isPrefixOf (c :: rest) || hasOccB tok rest

/-- The part of `TXT_SYS_PROMPT` before its sole placeholder occurrence. -/
def txtPre : List Char := TXT_SYS_PROMPT.toList.take 418

/-- The part of `TXT_SYS_PROMPT` after its sole placeholder occurrence. -/
def txtPost : List Char := TXT_SYS_PROMPT.toList.drop 428

/-- The part of `IMG_PROMPT` after its sole placeholder occurrence (which
sits at position 0). -/
def imgPost : List Char := IMG_PROMPT.toList.drop 10

/-! ### Moderation (src/src/index.ts lines 46-83) -/

structure ModEntry where
  flagged : Bool
deriving DecidableEq

/-- The moderation provider's JSON body; `results` is optional
(`result.results?.some(...) || false`). -/
structure ModerationAPIResponse where
  results : Option (List ModEntry)
deriving DecidableEq

/-- Outcome of one `fetch` as the handler observes it: the promise rejected
(or `.json()` threw), the response arrived with `ok` false, or it parsed. -/
inductive FetchOutcome (α : Type) where
  | throw
  | failure (status : Nat) (body : String)
  | success (value : α)

structure ModResult where
  flagged : Bool
  error : Option String
deriving DecidableEq

/-- `moderateContent` (lines 46-83): fail-open on any transport or HTTP error;
on success, flagged iff some element of `results` is flagged (`undefined`
results collapse to `false` via `|| false`). -/
def moderateContent : FetchOutcome ModerationAPIResponse → ModResult
  | .throw => { flagged := false, error := some "Unknown moderation error" }
  | .failure status body =>
    { flagged := false
      error := some ("Moderation API error " ++ toString status ++ ": " ++ body) }
  | .success r =>
    { flagged := (match r.results with
                  | none => false
                  | some rs => rs.any ModEntry.flagged)
      error := none }

/-! ### Routes -/

structure Choice where
  text : String
deriving DecidableEq

structure CompletionResponse where
  choices : List Choice
  created : Nat
deriving DecidableEq

structure ImgItem where
  b64_json : String
deriving DecidableEq

structure ImageGenerationResponse where
  data : List ImgItem
  id : String
deriving DecidableEq

/-- Outcome of an OpenAI-SDK call (`nebius.completions.create`): the SDK
throws on any API error, so only throw/ok are distinguishable. -/
inductive SDKOutcome (α : Type) where
  | throw
  | ok (value : α)

/-- Body of the `completions.create` call (lines 127-132). -/
structure CompletionRequestBody where
  prompt : String
  model : String
  stream : Bool
  max_tokens : Nat
deriving DecidableEq

def completionBody (p : String) : CompletionRequestBody :=
  { prompt := jsReplace TXT_SYS_PROMPT "\x7b\x7bprompt\x7d\x7d" p
    model := "meta-llama/Llama-3.3-70B-Instruct"
    stream := false
    max_tokens := 512 }

/-- Body of the `images/generations` POST (lines 163-173); `width`/`height`
are `Option Int` with `none` for `NaN` (serialised as JSON `null`). -/
structure ImageGenRequestBody where
  model : String
  prompt : String
  width : Option Int
  height : Option Int
  seed : Int
  negative_prompt : String
  num_inference_steps : Nat
  response_format : String
  response_extension : String
deriving DecidableEq

def imageGenBody (widthParam heightParam : Option String) (p : String) : ImageGenRequestBody :=
  { model := "black-forest-labs/flux-schnell"
    prompt := jsReplace IMG_PROMPT "\x7b\x7bprompt\x7d\x7d" p
    width := dimParam widthParam
    height := dimParam heightParam
    seed := -1
    negative_prompt := IMG_NEGATIVE_PROMPT
    num_inference_steps := 10
    response_format := "b64_json"
    response_extension := "jpg" }

/-- What a moderation call is given: the raw prompt text (text route) or a
single data-URI image part (image route). -/
inductive ModInput where
  | text (content : String)
  | imageUrl (url : String)
deriving DecidableEq

inductive OutboundCall where
  | moderation (input : ModInput)
  | completion (body : CompletionRequestBody)
  | imageGeneration (body : ImageGenRequestBody)
deriving DecidableEq

/-- `created_at` is a string (ISO timestamp) on flagged paths and a number
(`response.created`) on the text success path. -/
inductive JsonTime where
  | str (s : String)
  | num (n : Nat)
deriving DecidableEq

/-- An HTTP result as the client sees it. `httpError` covers both a thrown
`HTTPException` and the `onError` 500 fallback; `jsonMessage` is
`c.json({response, created_at})`; `jsonData` is `c.json({data})`. -/
inductive RouteResult where
  | httpError (status : Nat) (message : String)
  | jsonMessage (response : String) (created_at : JsonTime)
  | jsonData (data : String)
deriving DecidableEq

def flaggedMessage : String :=
  "Your input was flagged as inappropriate by our moderation system."

/-- GET /ai/txt2txt (lines 98-138). `prompt` is the raw query parameter
(`none` when absent); `now` is `new Date().toISOString()`; the two oracles are
the outcomes of the moderation fetch and of `nebius.completions.create`. -/
def txt2txt (prompt : Option String) (now : String)
    (modOutcome : FetchOutcome ModerationAPIResponse)
    (completionOutcome : SDKOutcome CompletionResponse) :
    RouteResult × List OutboundCall :=
  match prompt with
  | none => (.httpError 400 "Missing prompt", [])
  | some p =>
    if p.isEmpty then (.httpError 400 "Missing prompt", [])
    else
      let moderationResult := moderateContent modOutcome
      if moderationResult.flagged then
        (.jsonMessage flaggedMessage (.str now), [.moderation (.text p)])
      else
        match completionOutcome with
        | .throw =>
          (.httpError 500 "Internal Server Error",
           [.moderation (.text p), .completion (completionBody p)])
        | .ok r =>
          (.jsonMessage (String.join (r.choices.map Choice.text)) (.num r.created),
           [.moderation (.text p), .completion (completionBody p)])

/-- GET /ai/txt2img/:width/:height (lines 147-210). Oracles: the outcome of
the `images/generations` fetch and of the moderation fetch. -/
def txt2img (widthParam heightParam prompt : Option String) (now : String)
    (imgOutcome : FetchOutcome ImageGenerationResponse)
    (modOutcome : FetchOutcome ModerationAPIResponse) :
    RouteResult × List OutboundCall :=
  match prompt with
  | none => (.httpError 400 "Missing prompt", [])
  | some p =>
    if p.isEmpty then (.httpError 400 "Missing prompt", [])
    else
      let body := imageGenBody widthParam heightParam p
      match imgOutcome with
      | .throw => (.httpError 500 "Internal Server Error", [.imageGeneration body])
      | .failure _ errBody => (.httpError 400 errBody, [.imageGeneration body])
      | .success r =>
        match r.data.head? with
        | none => (.httpError 404 "No data", [.imageGeneration body])
        | some item =>
          if item.b64_json.isEmpty then (.httpError 404 "No data", [.imageGeneration body])
          else
            let moderationResult := moderateContent modOutcome
            let calls : List OutboundCall :=
              [.imageGeneration body,
               .moderation (.imageUrl ("data:image/jpeg;base64," ++ item.b64_json))]
            if moderationResult.flagged then
              (.jsonMessage flaggedMessage (.str now), calls)
            else
              (.jsonData item.b64_json, calls)

/-! ### Supporting lemmas on occurrences -/

theorem hasOccB_cons (tok : List Char) (c : Char) (rest : List Char) :
    hasOccB tok (c :: rest) = (tok.isPrefixOf (c :: rest) || hasOccB tok rest) := rfl

theorem prefix_of_append {tok u v : List Char} (h : tok <+: u ++ v) :
    tok <+: u ∨ (u <+: tok ∧ tok.drop u.length <+: v) := by
  rcases le_or_lt tok.length u.length with hle | hlt
  · left
    have h1 := List.prefix_iff_eq_take.mp h
    rw [List.take_append_eq_append_take, Nat.sub_eq_zero_of_le hle, List.take_zero,
      List.append_nil] at h1
    exact h1 ▸ List.take_prefix _ _
  · right
    have h1 := List.prefix_iff_eq_take.mp h
    rw [List.take_append_eq_append_take, List.take_of_length_le (Nat.le_of_lt hlt)] at h1
    refine ⟨⟨_, h1.symm⟩, ?_⟩
    rw [h1, List.drop_left]
    exact List.take_prefix _ _

theorem hasOccB_append_right (tok a : List Char) (ha : hasOccB tok a = false)
    (haa : ∀ n, n < tok.length → 0 < n → ¬ tok.drop n <+: a) :
    ∀ m : List Char, hasOccB tok m = false → hasOccB tok (m ++ a) = false := by
  intro m
  induction m with
  | nil => intro _; simpa using ha
  | cons c m' ih =>
    intro hm
    rw [hasOccB_cons, Bool.or_eq_false_iff] at hm
    obtain ⟨hm1, hm2⟩ := hm
    rw [List.cons_append, hasOccB_cons, Bool.or_eq_false_iff]
    refine ⟨?_, ih hm2⟩
    rw [Bool.eq_false_iff]
    intro hpre
    rw [List.isPrefixOf_iff_prefix] at hpre
    rw [show c :: (m' ++ a) = (c :: m') ++ a from rfl] at hpre
    rcases prefix_of_append hpre with h1 | ⟨h2, h3⟩
    · rw [← List.isPrefixOf_iff_prefix] at h1
      rw [h1] at hm1
      exact Bool.noConfusion hm1
    · have hlen : (c :: m').length ≤ tok.length := h2.length_le
      rcases Nat.lt_or_ge (c :: m').length tok.length with hlt | hge
      · exact haa (c :: m').length hlt (Nat.succ_pos _) h3
      · have heq : c :: m' = tok := h2.eq_of_length (Nat.le_antisymm hlen hge)
        have : tok.isPrefixOf (c :: m') = true := by
          rw [List.isPrefixOf_iff_prefix, heq]
        rw [this] at hm1
        exact Bool.noConfusion hm1

theorem hasOccB_append_left (tok t : List Char) (ht : hasOccB tok t = false) :
    ∀ b : List Char, hasOccB tok b = false →
      (∀ n, n < tok.length → 0 < n → ¬ tok.take n <:+ b) →
      hasOccB tok (b ++ t) = false := by
  intro b
  induction b with
  | nil => intro _ _; simpa using ht
  | cons c b' ih =>
    intro hb hbb
    rw [hasOccB_cons, Bool.or_eq_false_iff] at hb
    obtain ⟨hb1, hb2⟩ := hb
    rw [List.cons_append, hasOccB_cons, Bool.or_eq_false_iff]
    have hbb' : ∀ n, n < tok.length → 0 < n → ¬ tok.take n <:+ b' := by
      intro n h1 h2 hsuf
      exact hbb n h1 h2 (hsuf.trans (List.suffix_cons c b'))
    refine ⟨?_, ih hb2 hbb'⟩
    rw [Bool.eq_false_iff]
    intro hpre
    rw [List.isPrefixOf_iff_prefix] at hpre
    rw [show c :: (b' ++ t) = (c :: b') ++ t from rfl] at hpre
    rcases prefix_of_append hpre with h1 | ⟨h2, _⟩
    · rw [← List.isPrefixOf_iff_prefix] at h1
      rw [h1] at hb1
      exact Bool.noConfusion hb1
    · have hlen : (c :: b').length ≤ tok.length := h2.length_le
      rcases Nat.lt_or_ge (c :: b').length tok.length with hlt | hge
      · have htake : tok.take (c :: b').length = c :: b' :=
          (List.prefix_iff_eq_take.mp h2).symm
        have hsuf : tok.take (c :: b').length <:+ c :: b' := by
          rw [htake]
        exact hbb (c :: b').length hlt (Nat.succ_pos _) hsuf
      · have heq : c :: b' = tok := h2.eq_of_length (Nat.le_antisymm hlen hge)
        have : tok.isPrefixOf (c :: b') = true := by
          rw [List.isPrefixOf_iff_prefix, heq]
        rw [this] at hb1
        exact Bool.noConfusion hb1

/-- No occurrence of `tok` in `b ++ m ++ a` when none of the three parts
contains one, no nonempty prefix of `tok` ends `b`, and no nonempty suffix of
`tok` starts `a`. -/
theorem hasOccB_sandwich (tok b m a : List Char)
    (hb : hasOccB tok b = false) (hm : hasOccB tok m = false) (ha : hasOccB tok a = false)
    (hbb : ∀ n, n < tok.length → 0 < n → ¬ tok.take n <:+ b)
    (haa : ∀ n, n < tok.length → 0 < n → ¬ tok.drop n <+: a) :
    hasOccB tok (b ++ m ++ a) = false := by
  rw [List.append_assoc]
  exact hasOccB_append_left tok (m ++ a)
    (hasOccB_append_right tok a ha haa m hm) b hb hbb

theorem getSubstitution_of_no_dollar (m b a : List Char) :
    ∀ rep : List Char, '$' ∉ rep → getSubstitution m b a rep = rep
  | [], _ => rfl
  | [_], _ => rfl
  | c :: c2 :: rest, h => by
    have hc : ¬ c = '$' := by
      intro hh
      exact h (by simp [hh])
    have h' : '$' ∉ c2 :: rest := by
      intro hh
      exact h (List.mem_cons_of_mem c hh)
    have ih := getSubstitution_of_no_dollar m b a (c2 :: rest) h'
    simp [getSubstitution, hc, ih]

/-! ### Claims -/

/-- C1: for every request to /ai/txt2txt or /ai/txt2img/:width/:height whose
`prompt` query parameter is absent or empty, the handler fails with HTTP 400
"Missing prompt" and issues no outbound call (neither moderation nor
inference). -/
theorem missing_prompt_rejected_without_calls (pr : Option String)
    (h : pr = none ∨ pr = some "") :
    (∀ now mo co, txt2txt pr now mo co = (.httpError 400 "Missing prompt", [])) ∧
    (∀ wp hp now io mo, txt2img wp hp pr now io mo = (.httpError 400 "Missing prompt", [])) := by
  rcases h with h | h <;> subst h
  · exact ⟨fun _ _ _ => rfl, fun _ _ _ _ _ => rfl⟩
  · exact ⟨fun _ _ _ => rfl, fun _ _ _ _ _ => rfl⟩

/-- Witness for C1 at the concrete empty prompt. -/
theorem missing_prompt_rejected_without_calls_witness :
    txt2txt (some "") "ts" .throw .throw = (.httpError 400 "Missing prompt", []) :=
  (missing_prompt_rejected_without_calls (some "") (Or.inr rfl)).1 "ts" .throw .throw

/-- C2 counterexample: the path-parameter string "abc" does not parse
(`parseInt` yields `NaN`), yet the width forwarded upstream is `NaN`
(JSON `null`, modelled `none`), not the default 512. -/
theorem nan_dimension_not_defaulted_cex :
    parseIntJS "abc" = none ∧
    (imageGenBody (some "abc") (some "512") "cat").width = none ∧
    ¬ (imageGenBody (some "abc") (some "512") "cat").width = some 512 :=
  ⟨by decide, by decide, by decide⟩

/-- C2 (amended): for every width or height path-parameter string that does
not parse as an integer, the value forwarded upstream is `NaN` (serialised as
JSON `null`), never 512; the configured default 512 applies only when the
path parameter is absent (the `?? 512` fallback). The final conjunct grounds
"forwarded": the route's first outbound call always carries `imageGenBody`. -/
theorem nan_dimension_forwarded_as_nan (s : String) (hs : parseIntJS s = none) :
    (∀ hp p, (imageGenBody (some s) hp p).width = none) ∧
    (∀ wp p, (imageGenBody wp (some s) p).height = none) ∧
    (∀ hp p, (imageGenBody none hp p).width = some 512) ∧
    (∀ wp p, (imageGenBody wp none p).height = some 512) ∧
    (∀ wp hp p now io mo, (p : String).isEmpty = false →
      ∃ rest, (txt2img wp hp (some p) now io mo).2 =
        .imageGeneration (imageGenBody wp hp p) :: rest) := by
  refine ⟨?_, ?_, ?_, ?_, ?_⟩
  · intro hp p
    simp [imageGenBody, dimParam, hs]
  · intro wp p
    simp [imageGenBody, dimParam, hs]
  · intro hp p
    show dimParam none = some 512
    decide
  · intro wp p
    show dimParam none = some 512
    decide
  · intro wp hp p now io mo hpe
    cases io with
    | throw => exact ⟨[], by simp [txt2img, hpe]⟩
    | failure st b => exact ⟨[], by simp [txt2img, hpe]⟩
    | success r =>
      cases hd : r.data.head? with
      | none => exact ⟨[], by simp [txt2img, hpe, hd]⟩
      | some item =>
        by_cases hb : item.b64_json.isEmpty
        · exact ⟨[], by simp [txt2img, hpe, hd, hb]⟩
        · by_cases hf : (moderateContent mo).flagged
          · exact ⟨[.moderation (.imageUrl ("data:image/jpeg;base64," ++ item.b64_json))],
              by simp [txt2img, hpe, hd, hb, hf]⟩
          · exact ⟨[.moderation (.imageUrl ("data:image/jpeg;base64," ++ item.b64_json))],
              by simp [txt2img, hpe, hd, hb, hf]⟩

/-- Witness for the amended C2 at the concrete unparseable string "abc". -/
theorem nan_dimension_forwarded_as_nan_witness :
    parseIntJS "abc" = none ∧ (imageGenBody (some "abc") (some "7") "x").width = none :=
  ⟨by decide, (nan_dimension_forwarded_as_nan "abc" (by decide)).1 (some "7") "x"⟩

/-- C3: every width or height path value parsing to an integer above 1400 is
forwarded as exactly 1400, and the clamp `Math.min(-, 1400)` is idempotent. -/
theorem oversize_dimension_clamped :
    (∀ s v, parseIntJS s = some v → 1400 < v →
      ∀ wp hp p, (imageGenBody (some s) hp p).width = some 1400 ∧
                 (imageGenBody wp (some s) p).height = some 1400) ∧
    (∀ x : Int, clampDim (clampDim x) = clampDim x) := by
  constructor
  · intro s v h hv wp hp p
    constructor <;>
      simp [imageGenBody, dimParam, h, clampDim, min_eq_right (le_of_lt hv)]
  · intro x
    simp [clampDim, min_assoc]

/-- Witness for C3 at the concrete oversize value 2000. -/
theorem oversize_dimension_clamped_witness :
    parseIntJS "2000" = some 2000 ∧
    (imageGenBody (some "2000") (some "1") "x").width = some 1400 :=
  ⟨by decide,
    (oversize_dimension_clamped.1 "2000" 2000 (by decide) (by decide) (some "1") (some "1") "x").1⟩

/-- C4: the clamp enforces only an upper bound: every parsed value that is at
most 1400 — zero and negative values included — is forwarded unchanged, and
the route's visible result never depends on the dimension parameters (no
rejection, no lower bound). -/
theorem clamp_upper_bound_only (s : String) (v : Int)
    (h : parseIntJS s = some v) (hv : v ≤ 1400) :
    (∀ hp p, (imageGenBody (some s) hp p).width = some v) ∧
    (∀ wp p, (imageGenBody wp (some s) p).height = some v) ∧
    (∀ wp wp2 hp hp2 pr now io mo,
      (txt2img wp hp pr now io mo).1 = (txt2img wp2 hp2 pr now io mo).1) := by
  refine ⟨?_, ?_, ?_⟩
  · intro hp p
    simp [imageGenBody, dimParam, h, clampDim, min_eq_left hv]
  · intro wp p
    simp [imageGenBody, dimParam, h, clampDim, min_eq_left hv]
  · intro wp wp2 hp hp2 pr now io mo
    cases pr with
    | none => rfl
    | some p =>
      by_cases hpe : p.isEmpty
      · simp [txt2img, hpe]
      · cases io with
        | throw => simp [txt2img, hpe]
        | failure st b => simp [txt2img, hpe]
        | success r =>
          cases hd : r.data.head? with
          | none => simp [txt2img, hpe, hd]
          | some item =>
            by_cases hb : item.b64_json.isEmpty
            · simp [txt2img, hpe, hd, hb]
            · by_cases hf : (moderateContent mo).flagged <;>
                simp [txt2img, hpe, hd, hb, hf]

/-- Witness for C4 at the concrete negative value -5. -/
theorem clamp_upper_bound_only_witness :
    parseIntJS "-5" = some (-5) ∧
    (imageGenBody (some "-5") (some "0") "x").width = some (-5) :=
  ⟨by decide, (clamp_upper_bound_only "-5" (-5) (by decide) (by decide)).1 (some "0") "x"⟩

/-- C5 counterexample: for the non-empty prompt that is itself the literal
token, the token DOES appear in the substituted result (for both templates the
replacement value is inserted verbatim, so it reintroduces the token). -/
theorem token_survives_substitution_cex :
    ("\x7b\x7bprompt\x7d\x7d" : String).isEmpty = false ∧
    hasOccB promptToken ((completionBody "\x7b\x7bprompt\x7d\x7d").prompt).toList = true ∧
    hasOccB promptToken ((imageGenBody none none "\x7b\x7bprompt\x7d\x7d").prompt).toList = true :=
  ⟨by decide, by decide, by decide⟩

/-- C5 (amended): substitution rewrites the first (and, the templates holding
the token exactly once, the only) occurrence of the token, leaving the
surrounding template intact; the token does not appear in the substituted
result provided the prompt itself contains neither the token nor the dollar
character (a dollar can reintroduce text via the JS replacement-pattern
expansion, e.g. a prompt "$&" inserts the matched token). -/
theorem substitution_first_occurrence_once (p : String)
    (hd : '$' ∉ p.toList) (hp : hasOccB promptToken p.toList = false) :
    (TXT_SYS_PROMPT.toList = txtPre ++ promptToken ++ txtPost ∧
     hasOccB promptToken txtPre = false ∧ hasOccB promptToken txtPost = false) ∧
    ((completionBody p).prompt.toList = txtPre ++ p.toList ++ txtPost ∧
     hasOccB promptToken ((completionBody p).prompt).toList = false) ∧
    (IMG_PROMPT.toList = promptToken ++ imgPost ∧
     ∀ wp hp2, ((imageGenBody wp hp2 p).prompt).toList = p.toList ++ imgPost ∧
       hasOccB promptToken ((imageGenBody wp hp2 p).prompt).toList = false) := by
  have hsplitT : splitAtToken promptToken TXT_SYS_PROMPT.toList = some (txtPre, txtPost) := by
    decide
  have hsplitI : splitAtToken promptToken IMG_PROMPT.toList = some ([], imgPost) := by
    decide
  have hexpT : getSubstitution promptToken txtPre txtPost p.toList = p.toList :=
    getSubstitution_of_no_dollar _ _ _ _ hd
  have hexpI : getSubstitution promptToken [] imgPost p.toList = p.toList :=
    getSubstitution_of_no_dollar _ _ _ _ hd
  have heqT : (completionBody p).prompt.toList = txtPre ++ p.toList ++ txtPost := by
    show jsReplaceFirst TXT_SYS_PROMPT.toList promptToken p.toList = _
    unfold jsReplaceFirst
    rw [hsplitT]
    show txtPre ++ getSubstitution promptToken txtPre txtPost p.toList ++ txtPost = _
    rw [hexpT]
  have heqI : ((imageGenBody none none p).prompt).toList = p.toList ++ imgPost := by
    show jsReplaceFirst IMG_PROMPT.toList promptToken p.toList = _
    unfold jsReplaceFirst
    rw [hsplitI]
    show [] ++ getSubstitution promptToken [] imgPost p.toList ++ imgPost = _
    rw [hexpI]
    simp
  refine ⟨⟨by decide, by decide, by decide⟩, ⟨heqT, ?_⟩, by decide, ?_⟩
  · rw [heqT]
    exact hasOccB_sandwich promptToken txtPre p.toList txtPost (by decide) hp (by decide)
      (by decide) (by decide)
  · intro wp hp2
    have heqI2 : ((imageGenBody wp hp2 p).prompt).toList = p.toList ++ imgPost := heqI
    refine ⟨heqI2, ?_⟩
    rw [heqI2]
    exact hasOccB_append_right promptToken imgPost (by decide) (by decide) p.toList hp

/-- Witness for the amended C5 at a concrete benign prompt. -/
theorem substitution_first_occurrence_once_witness :
    '$' ∉ ("A cat on a mat" : String).toList ∧
    hasOccB promptToken ((completionBody "A cat on a mat").prompt).toList = false ∧
    hasOccB promptToken ((imageGenBody none none "A cat on a mat").prompt).toList = false := by
  refine ⟨by decide, ?_, ?_⟩
  · exact ((substitution_first_occurrence_once "A cat on a mat" (by decide) (by decide)).2.1).2
  · exact (((substitution_first_occurrence_once "A cat on a mat" (by decide)
      (by decide)).2.2).2 none none).2

/-- C6: the non-streaming text route returns the in-order concatenation of all
upstream choice texts with the provider's `created` timestamp; in particular
choices `[{text: "A"}, {text: "B"}]` produce `{response: "AB"}` (see the
witness). -/
theorem txt2txt_concatenates_choice_texts (p now : String)
    (mo : FetchOutcome ModerationAPIResponse) (r : CompletionResponse)
    (hp : p.isEmpty = false) (hm : (moderateContent mo).flagged = false) :
    txt2txt (some p) now mo (.ok r) =
      (.jsonMessage (String.join (r.choices.map Choice.text)) (.num r.created),
       [.moderation (.text p), .completion (completionBody p)]) := by
  simp [txt2txt, hp, hm]

/-- Witness for C6: choices `[{text: "A"}, {text: "B"}]` yield response "AB"
and the provider timestamp. -/
theorem txt2txt_concatenates_choice_texts_witness :
    txt2txt (some "cat") "ts" (.success ⟨some [⟨false⟩]⟩) (.ok ⟨[⟨"A"⟩, ⟨"B"⟩], 99⟩) =
      (.jsonMessage "AB" (.num 99),
       [.moderation (.text "cat"), .completion (completionBody "cat")]) := by
  have h := txt2txt_concatenates_choice_texts "cat" "ts" (.success ⟨some [⟨false⟩]⟩)
      ⟨[⟨"A"⟩, ⟨"B"⟩], 99⟩ (by decide) (by decide)
  rw [h]
  rfl

/-- C7: moderation fails open — a transport error or a non-success HTTP status
yields `{flagged: false, error: ...}`; a successful call is flagged exactly
when some element of `results` is flagged; and whenever `flagged` is false the
calling route proceeds to the inference call. -/
theorem moderation_fail_open :
    (∀ status body, moderateContent (.failure status body) =
      { flagged := false,
        error := some ("Moderation API error " ++ toString status ++ ": " ++ body) }) ∧
    (moderateContent .throw = { flagged := false, error := some "Unknown moderation error" }) ∧
    (∀ r : ModerationAPIResponse,
      (moderateContent (.success r)).error = none ∧
      ((moderateContent (.success r)).flagged = true ↔
        ∃ rs, r.results = some rs ∧ ∃ e ∈ rs, e.flagged = true)) ∧
    (∀ (p now : String) mo co, p.isEmpty = false → (moderateContent mo).flagged = false →
      (txt2txt (some p) now mo co).2 = [.moderation (.text p), .completion (completionBody p)]) := by
  refine ⟨fun _ _ => rfl, rfl, ?_, ?_⟩
  · intro r
    refine ⟨rfl, ?_⟩
    cases hres : r.results with
    | none => simp [moderateContent, hres]
    | some rs => simp [moderateContent, hres, List.any_eq_true, ModEntry.flagged]
  · intro p now mo co hp hm
    cases co <;> simp [txt2txt, hp, hm]

/-- Witness for C7 at a concrete failed moderation call: the failure is not
flagged and the text route still proceeds to the completion call. -/
theorem moderation_fail_open_witness :
    moderateContent (.failure 500 "boom") =
      { flagged := false, error := some "Moderation API error 500: boom" } ∧
    (txt2txt (some "cat") "ts" (.failure 500 "boom") (.ok ⟨[], 0⟩)).2 =
      [.moderation (.text "cat"), .completion (completionBody "cat")] :=
  ⟨moderation_fail_open.1 500 "boom",
   moderation_fail_open.2.2.2 "cat" "ts" (.failure 500 "boom") (.ok ⟨[], 0⟩)
     (by decide) (by decide)⟩

/-- C8: a flagged /ai/txt2txt request returns the fixed flagged message with
the current timestamp and never issues the completion call; in every valid
run the moderation call strictly precedes any completion call. -/
theorem flagged_prompt_short_circuits :
    (∀ (p now : String) mo co, p.isEmpty = false → (moderateContent mo).flagged = true →
      txt2txt (some p) now mo co =
        (.jsonMessage flaggedMessage (.str now), [.moderation (.text p)])) ∧
    (∀ (p now : String) mo co, p.isEmpty = false →
      (txt2txt (some p) now mo co).2 = [.moderation (.text p)] ∨
      (txt2txt (some p) now mo co).2 = [.moderation (.text p), .completion (completionBody p)]) := by
  constructor
  · intro p now mo co hp hm
    simp [txt2txt, hp, hm]
  · intro p now mo co hp
    by_cases hf : (moderateContent mo).flagged
    · left
      simp [txt2txt, hp, hf]
    · right
      cases co <;> simp [txt2txt, hp, hf]

/-- Witness for C8 at a concrete flagged moderation verdict. -/
theorem flagged_prompt_short_circuits_witness :
    txt2txt (some "cat") "ts" (.success ⟨some [⟨true⟩]⟩) (.ok ⟨[], 0⟩) =
      (.jsonMessage flaggedMessage (.str "ts"), [.moderation (.text "cat")]) :=
  flagged_prompt_short_circuits.1 "cat" "ts" (.success ⟨some [⟨true⟩]⟩) (.ok ⟨[], 0⟩)
    (by decide) (by decide)

/-- C9: on the image route a non-success upstream status yields HTTP 400 with
the upstream's raw error body; a success whose first result carries no base64
payload (empty `data`, or a falsy `b64_json`) yields HTTP 404 "No data";
otherwise (when not flagged) the route returns `{data: <first base64>}`. -/
theorem txt2img_error_paths (wp hp : Option String) (p now : String)
    (mo : FetchOutcome ModerationAPIResponse) (hpne : p.isEmpty = false) :
    (∀ status body, txt2img wp hp (some p) now (.failure status body) mo =
      (.httpError 400 body, [.imageGeneration (imageGenBody wp hp p)])) ∧
    (∀ r : ImageGenerationResponse, r.data = [] →
      txt2img wp hp (some p) now (.success r) mo =
        (.httpError 404 "No data", [.imageGeneration (imageGenBody wp hp p)])) ∧
    (∀ (r : ImageGenerationResponse) item rest, r.data = item :: rest →
      item.b64_json.isEmpty = true →
      txt2img wp hp (some p) now (.success r) mo =
        (.httpError 404 "No data", [.imageGeneration (imageGenBody wp hp p)])) ∧
    (∀ (r : ImageGenerationResponse) item rest, r.data = item :: rest →
      item.b64_json.isEmpty = false → (moderateContent mo).flagged = false →
      txt2img wp hp (some p) now (.success r) mo =
        (.jsonData item.b64_json,
         [.imageGeneration (imageGenBody wp hp p),
          .moderation (.imageUrl ("data:image/jpeg;base64," ++ item.b64_json))])) := by
  refine ⟨?_, ?_, ?_, ?_⟩
  · intro status body
    simp [txt2img, hpne]
  · intro r hdata
    simp [txt2img, hpne, hdata]
  · intro r item rest hdata hb
    simp [txt2img, hpne, hdata, hb]
  · intro r item rest hdata hb hm
    simp [txt2img, hpne, hdata, hb, hm]

/-- Witness for C9 at the concrete empty `data` array. -/
theorem txt2img_error_paths_witness :
    txt2img none none (some "cat") "ts" (.success ⟨[], "id1"⟩) (.success ⟨some []⟩) =
      (.httpError 404 "No data", [.imageGeneration (imageGenBody none none "cat")]) :=
  (txt2img_error_paths none none "cat" "ts" (.success ⟨some []⟩) (by decide)).2.1
    ⟨[], "id1"⟩ rfl

/-- C10: on the image route, moderation runs only after the base64 payload has
been successfully extracted (every trace containing a moderation call is
extraction-then-moderation, and the moderated content is the extracted image
data URI); a flagged image yields the text-shaped envelope
`{response: <fixed message>, created_at: <ISO timestamp>}`, never the
`{data: ...}` envelope carrying the base64 payload. -/
theorem txt2img_moderation_after_extraction (wp hp : Option String) (now : String)
    (mo : FetchOutcome ModerationAPIResponse) :
    (∀ (p : String) (r : ImageGenerationResponse) item rest, p.isEmpty = false →
      r.data = item :: rest → item.b64_json.isEmpty = false →
      (moderateContent mo).flagged = true →
      txt2img wp hp (some p) now (.success r) mo =
        (.jsonMessage flaggedMessage (.str now),
         [.imageGeneration (imageGenBody wp hp p),
          .moderation (.imageUrl ("data:image/jpeg;base64," ++ item.b64_json))]) ∧
      ∀ s, (txt2img wp hp (some p) now (.success r) mo).1 ≠ .jsonData s) ∧
    (∀ (pr : Option String) (io : FetchOutcome ImageGenerationResponse) (mi : ModInput),
      .moderation mi ∈ (txt2img wp hp pr now io mo).2 →
      ∃ p2 r item rest, pr = some p2 ∧ io = .success r ∧ r.data = item :: rest ∧
        item.b64_json.isEmpty = false ∧
        (txt2img wp hp pr now io mo).2 =
          [.imageGeneration (imageGenBody wp hp p2),
           .moderation (.imageUrl ("data:image/jpeg;base64," ++ item.b64_json))]) := by
  constructor
  · intro p r item rest hpne hdata hb hm
    have heq : txt2img wp hp (some p) now (.success r) mo =
        (.jsonMessage flaggedMessage (.str now),
         [.imageGeneration (imageGenBody wp hp p),
          .moderation (.imageUrl ("data:image/jpeg;base64," ++ item.b64_json))]) := by
      simp [txt2img, hpne, hdata, hb, hm]
    refine ⟨heq, ?_⟩
    rw [heq]
    intro s hcontra
    exact RouteResult.noConfusion hcontra
  · intro pr io mi hmem
    cases pr with
    | none => simp [txt2img] at hmem
    | some p2 =>
      by_cases hpe : p2.isEmpty
      · simp [txt2img, hpe] at hmem
      · cases io with
        | throw => simp [txt2img, hpe] at hmem
        | failure st b => simp [txt2img, hpe] at hmem
        | success r =>
          cases hd : r.data with
          | nil => simp [txt2img, hpe, hd] at hmem
          | cons item rest =>
            by_cases hb : item.b64_json.isEmpty
            · simp [txt2img, hpe, hd, hb] at hmem
            · refine ⟨p2, r, item, rest, rfl, rfl, hd, by simpa using hb, ?_⟩
              by_cases hf : (moderateContent mo).flagged <;>
                simp [txt2img, hpe, hd, hb, hf]

/-- Witness for C10 at a concrete flagged image. -/
theorem txt2img_moderation_after_extraction_witness :
    txt2img none none (some "cat") "ts" (.success ⟨[⟨"xyz"⟩], "id1"⟩)
        (.success ⟨some [⟨true⟩]⟩) =
      (.jsonMessage flaggedMessage (.str "ts"),
       [.imageGeneration (imageGenBody none none "cat"),
        .moderation (.imageUrl "data:image/jpeg;base64,xyz")]) := by
  have h := (txt2img_moderation_after_extraction none none "ts"
      (.success ⟨some [⟨true⟩]⟩)).1 "cat" ⟨[⟨"xyz"⟩], "id1"⟩ ⟨"xyz"⟩ []
      (by decide) rfl (by decide) (by decide)
  rw [h.1]
  rfl

end Aiprox
